import Mathlib

/-!
Verification development for the notion-integration CLI core:
the HTTP request pipeline (error classification, retry policy, response
cache, token-bucket rate limiter) and the Markdown renderer.

Each definition is a shallow embedding of the corresponding Python
function; file and line references are given in the doc comments.
Machine integers are modelled as `Int`/`Nat`; floats (rate-limiter token
counts and timestamps) are modelled as `ℚ`; fallible code returns
`Option`/`Except`.
-/

/-! ### JSON values (the `dict[str, Any]` payloads passed around the client) -/

/-- A JSON value, as produced by `response.json()` and stored in the cache. -/
inductive Json where
  | null : Json
  | bool (b : Bool) : Json
  | num (n : Int) : Json
  | str (s : String) : Json
  | arr (elems : List Json) : Json
  | obj (fields : List (String × Json)) : Json
deriving Repr

/-- Lookup of a key in a JSON object body, mirroring Python `dict.get(k, default)`. -/
def jsonGet (body : List (String × Json)) (k : String) (default : Json) : Json :=
  match body with
  | [] => default
  | (k1, v) :: rest => if k1 = k then v else jsonGet rest k default

/-! ### Exception taxonomy (`src/notion_cli/exceptions.py`)

Each Python exception class fixes a `code` string and an `exit_code`; an
instance additionally carries a message and a details dict.  The class of
an instance is modelled as an `ErrKind` tag. -/

/-- The error kinds of the taxonomy in `exceptions.py` (one per exception class;
`unknown` is the base class `NotionCLIError` itself). -/
inductive ErrKind where
  | authenticationError
  | notFound
  | validationError
  | rateLimited
  | permissionDenied
  | serverError
  | networkError
  | conflict
  | unknown
deriving DecidableEq, Repr

/-- The per-class `code` string (`exceptions.py` class attributes). -/
def ErrKind.code : ErrKind → String
  | .authenticationError => "authentication_error"
  | .notFound => "not_found"
  | .validationError => "validation_error"
  | .rateLimited => "rate_limited"
  | .permissionDenied => "permission_denied"
  | .serverError => "server_error"
  | .networkError => "network_error"
  | .conflict => "conflict"
  | .unknown => "error"

/-- The per-class `exit_code` (`exceptions.py` class attributes). -/
def ErrKind.exit_code : ErrKind → Nat
  | .authenticationError => 2
  | .notFound => 3
  | .validationError => 4
  | .rateLimited => 5
  | .permissionDenied => 6
  | .serverError => 7
  | .networkError => 8
  | .conflict => 9
  | .unknown => 1

/-- An instance of `NotionCLIError` (or a subclass): its class tag, message and
structured details.  The message is kept as a `Json` value because
`exception_from_response` stores whatever `body.get("message")` returned. -/
structure NotionCLIError where
  kind : ErrKind
  message : Json
  details : List (String × Json)
deriving Repr

/-- Constructor of `RateLimitError(message, retry_after, attempts)`
(`exceptions.py` lines 52-64): the details dict is always
`{"retry_after": retry_after, "attempts": attempts}`. -/
def mkRateLimitError (message : Json) (retry_after : Option Int) (attempts : Nat) :
    NotionCLIError :=
  { kind := .rateLimited


    message := message
    details := [("retry_after", match retry_after with
                  | some n => Json.num n
                  | none => Json.null),
                ("attempts", Json.num attempts)] }

/-- Embedding of `exception_from_response(status_code, body)`
(`exceptions.py` lines 95-118).  The Python function dispatches on a dict
`error_map = {400: ValidationError, 401: AuthenticationError, 403:
PermissionError, 404: NotFoundError, 409: ConflictError, 429: RateLimitError}`,
then `status_code >= 500` to `ServerError`, else the base `NotionCLIError`.
It is a total function: it never raises. -/
def exception_from_response (status_code : Int) (body : List (String × Json)) :
    NotionCLIError :=
  let message := jsonGet body "message" (Json.str "Unknown error")
  let code := jsonGet body "code" (Json.str "unknown")
  if status_code = 400 then
    ⟨.validationError, message, [("notion_code", code)]⟩
  else if status_code = 401 then
    ⟨.authenticationError, message, [("notion_code", code)]⟩
  else if status_code = 403 then
    ⟨.permissionDenied, message, [("notion_code", code)]⟩
  else if status_code = 404 then
    ⟨.notFound, message, [("notion_code", code)]⟩
  else if status_code = 409 then
    ⟨.conflict, message, [("notion_code", code)]⟩
  else if status_code = 429 then
    mkRateLimitError message none 0
  else if 500 ≤ status_code then
    ⟨.serverError, message, [("status_code", Json.num status_code), ("notion_code", code)]⟩
  else
    ⟨.unknown, message, [("status_code", Json.num status_code), ("notion_code", code)]⟩

/-- The classification table as the specification states it (section 4.4 /
section 8 of the spec): 400 to Validation, 401 to Authentication, 403 to
PermissionDenied, 404 to NotFound, 409 to Conflict, 429 to RateLimit, every
status at least 500 to Server, everything else to Unknown.  Kept separate from
`exception_from_response` so the code's classifier can be compared against the
spec's table. -/
def classifyKindSpec (status : Int) : ErrKind :=
  if status = 400 then .validationError
  else if status = 401 then .authenticationError
  else if status = 403 then .permissionDenied
  else if status = 404 then .notFound
  else if status = 409 then .conflict
  else if status = 429 then .rateLimited
  else if 500 ≤ status then .serverError
  else .unknown

/-! ### Response cache (`src/notion_cli/client/cache.py`)

The Python `Cache` wraps a lazily created on-disk `diskcache.Cache`.  The
model makes two standard abstractions, both noted here so they can be
checked against the source:

* `_make_key` serializes `{"endpoint": endpoint, "params": params or {}}`
  with `json.dumps(..., sort_keys=True)` and takes the SHA-256 hex digest.
  The serialization of the canonical (key-sorted) pair is injective, and the
  digest is treated as collision-free (the spec's "collision-resistant hash"
  assumption), so the model uses the canonical pair itself as the key.
  Query parameters are modelled as string-valued maps.
* `set` stores `json.dumps(value)` and `get` returns `json.loads(raw)`;
  since `json.loads` is a left inverse of `json.dumps` on JSON values, the
  model stores the `Json` value directly.

Wall-clock time is passed explicitly as a `Nat` (seconds); `diskcache`
treats an entry whose expiry time has passed as missing.  The lazy creation
of the backing store (which makes the cache directory on disk, `cache.py`
lines 43-49) is modelled by the `initialized` flag: any real access through
`self.cache` sets it. -/

/-- Query parameters: a string-keyed, string-valued map given as an
association list (a Python `dict[str, str]`, so callers keep keys distinct). -/
def Params := List (String × String)
deriving DecidableEq, Repr

/-- Sorted insertion by key (helper for the canonical key order). -/
def insertSorted (x : String × String) : List (String × String) → List (String × String)
  | [] => [x]
  | y :: ys => if x.1 ≤ y.1 then x :: y :: ys else y :: insertSorted x ys

/-- Insertion sort by key: the `sort_keys=True` order of `json.dumps`. -/
def sortByKey : List (String × String) → List (String × String)
  | [] => []
  | x :: xs => insertSorted x (sortByKey xs)

/-- Canonical form of `params or {}` under `sort_keys=True`: the entries
sorted by key.  Two argument lists denoting the same dict canonicalize
identically. -/
def canonParams (params : Option Params) : List (String × String) :=
  sortByKey (params.getD [])

/-- Cache keys: the canonical `(endpoint, sorted params)` pair standing for
the SHA-256 hex digest of its sorted-keys JSON serialization
(`cache.py` lines 51-55, `_make_key`). -/
def CacheKey := String × List (String × String)
deriving DecidableEq, Repr

/-- Embedding of `Cache._make_key(endpoint, params)`. -/
def make_key (endpoint : String) (params : Option Params) : CacheKey :=
  (endpoint, canonParams params)

/-- State of a `Cache` instance: construction arguments `enabled` and
`default_ttl`, the lazily-created backing store flag, and the stored
entries (key to value and absolute expiry second). -/
structure Cache where
  enabled : Bool
  default_ttl : Nat
  initialized : Bool
  store : List (CacheKey × (Json × Nat))

/-- A freshly constructed cache (`Cache.__init__`): nothing on disk yet. -/
def Cache.init (enabled : Bool) (default_ttl : Nat) : Cache :=
  { enabled := enabled, default_ttl := default_ttl, initialized := false, store := [] }

/-- Association-list lookup used for the backing store. -/
def storeLookup (store : List (CacheKey × (Json × Nat))) (k : CacheKey) :
    Option (Json × Nat) :=
  match store with
  | [] => none
  | (k1, v) :: rest => if k1 = k then some v else storeLookup rest k

/-- Association-list overwrite used for the backing store (`diskcache` `set`
replaces any existing entry for the key). -/
def storeInsert (store : List (CacheKey × (Json × Nat))) (k : CacheKey)
    (v : Json × Nat) : List (CacheKey × (Json × Nat)) :=
  match store with
  | [] => [(k, v)]
  | (k1, v1) :: rest =>
    if k1 = k then (k, v) :: rest else (k1, v1) :: storeInsert rest k v

/-- Embedding of `Cache.get(endpoint, params)` (`cache.py` lines 57-78) at
time `now`.  Returns the value (or `none`) together with the cache state
after the call: when the cache is disabled it returns `None` before touching
the backing store; otherwise the access initializes the store and an entry
whose expiry has passed reads as missing. -/
def Cache.get (c : Cache) (endpoint : String) (params : Option Params) (now : Nat) :
    Option Json × Cache :=
  if ¬ c.enabled then (none, c)
  else
    let c1 := { c with initialized := true }
    let key := make_key endpoint params
    match storeLookup c1.store key with
    | some (v, expire) => if now < expire then (some v, c1) else (none, c1)
    | none => (none, c1)

/-- Embedding of `Cache.set(endpoint, params, value, ttl)` (`cache.py` lines
80-101) at time `now`: a no-op when disabled, otherwise stores the value
under the derived key with expiry `now + (ttl or default_ttl)`. -/
def Cache.set (c : Cache) (endpoint : String) (params : Option Params)
    (value : Json) (ttl : Option Nat) (now : Nat) : Cache :=
  if ¬ c.enabled then c
  else
    let key := make_key endpoint params
    let expire := ttl.getD c.default_ttl
    { c with initialized := true, store := storeInsert c.store key (value, now + expire) }

/-! ### Token-bucket rate limiter (`src/notion_cli/client/rate_limiter.py`)

Float token counts and monotonic timestamps are modelled as `ℚ`.  Real
sleeping and the internal lock are irrelevant to the token arithmetic; the
monotonic clock is passed in explicitly (each `time.monotonic()` read is one
sample), with monotonicity stated as a hypothesis where a theorem needs it. -/

/-- State of a `RateLimiter` instance (`rate_limiter.py` lines 15-28). -/
structure RateLimiter where
  requests_per_second : ℚ
  max_burst : ℕ
  tokens : ℚ
  last_refill : ℚ

/-- A freshly constructed limiter (`__post_init__`, lines 25-28): full burst. -/
def RateLimiter.mkInit (requests_per_second : ℚ) (max_burst : ℕ) (now : ℚ) :
    RateLimiter :=
  { requests_per_second := requests_per_second, max_burst := max_burst,
    tokens := max_burst, last_refill := now }

/-- Embedding of `RateLimiter._refill` (lines 30-36) with the sampled
monotonic clock `now`:
`tokens = min(max_burst, tokens + elapsed * requests_per_second)`. -/
def RateLimiter.refill (rl : RateLimiter) (now : ℚ) : RateLimiter :=
  let elapsed := now - rl.last_refill
  let new_tokens := elapsed * rl.requests_per_second
  { rl with tokens := min (rl.max_burst : ℚ) (rl.tokens + new_tokens),
            last_refill := now }

/-- The mutating operations on the limiter state, each tagged with the
monotonic-clock sample observed when it runs.  `acquireStep` is one
iteration of the `acquire` loop (lines 50-56): refill, then take a token if
at least one is available.  `reset` (lines 90-94) and `waitForRetry`
(lines 75-88, the part after the sleep) both set the bucket to full. -/
inductive RLOp where
  | refillOp (now : ℚ)
  | acquireStep (now : ℚ)
  | reset (now : ℚ)
  | waitForRetry (now : ℚ)

/-- Clock sample carried by an operation. -/
def RLOp.now : RLOp → ℚ
  | .refillOp t => t
  | .acquireStep t => t
  | .reset t => t
  | .waitForRetry t => t

/-- One limiter operation applied to the state. -/
def RateLimiter.step (rl : RateLimiter) : RLOp → RateLimiter
  | .refillOp now => rl.refill now
  | .acquireStep now =>
    let rl1 := rl.refill now
    if 1 ≤ rl1.tokens then { rl1 with tokens := rl1.tokens - 1 } else rl1
  | .reset now => { rl with tokens := rl.max_burst, last_refill := now }
  | .waitForRetry now => { rl with tokens := rl.max_burst, last_refill := now }

/-- A whole sequence of limiter operations. -/
def RateLimiter.steps (rl : RateLimiter) : List RLOp → RateLimiter
  | [] => rl
  | op :: rest => (rl.step op).steps rest

/-- The spec's invariant for the limiter: `0 ≤ tokens ≤ capacity`. -/
def RateLimiter.Inv (rl : RateLimiter) : Prop :=
  0 ≤ rl.tokens ∧ rl.tokens ≤ (rl.max_burst : ℚ)

/-- The monotonic-clock assumption for a sequence of operations: each
operation's clock sample is at least the `last_refill` timestamp current
when it runs (every operation updates `last_refill` to its own sample). -/
def validTimes (rl : RateLimiter) : List RLOp → Prop
  | [] => True
  | op :: rest => rl.last_refill ≤ op.now ∧ validTimes (rl.step op) rest

/-- Embedding of `RateLimiter.acquire(timeout)` (lines 38-73).  `clocks` is
the stream of `time.monotonic()` samples the call observes: each loop
iteration reads the clock once inside `_refill`, and, when a timeout is
given, once more to compute `elapsed`.  The sleep itself only advances the
clock, which the next sample reflects.  The result is `some true` (token
taken, bucket decremented), `some false` (timeout exceeded, returned
without raising and without consuming a token), or `none` when the sample
stream ends before the call returns (the call is still blocked). -/
def acquireLoop (rl : RateLimiter) (timeout : Option ℚ) (start_time : ℚ) :
    List ℚ → Option Bool × RateLimiter
  | [] => (none, rl)
  | now :: rest =>
    let rl1 := rl.refill now
    if 1 ≤ rl1.tokens then (some true, { rl1 with tokens := rl1.tokens - 1 })
    else
      match timeout with
      | none => acquireLoop rl1 none start_time rest
      | some t =>
        match rest with
        | [] => (none, rl1)
        | now2 :: rest2 =>
          let elapsed := now2 - start_time
          let remaining := t - elapsed
          if remaining ≤ 0 then (some false, rl1)
          else acquireLoop rl1 (some t) start_time rest2

/-- Monotone sample streams: non-decreasing and starting no earlier than `x`. -/
def ClocksMono (x : ℚ) : List ℚ → Prop
  | [] => True
  | c :: cs => x ≤ c ∧ ClocksMono c cs

/-! ### Request pipeline (`src/notion_cli/client/base.py`)

One `NotionClient.request` call is modelled against a trace of raw HTTP
outcomes, one per attempted network call (`httpx` transport exceptions or a
status-code response).  `_make_request` classifies one such outcome exactly
as `base.py` lines 85-127 do.  The tenacity decorator on lines 159-165
(`stop_after_attempt(max_retries)`,
`retry_if_exception_type((RateLimitError, ServerError, NetworkError))`,
`reraise=True`) is modelled by `retryLoop`: a non-matching exception
propagates at once; a matching one is re-raised itself once the attempt
number reaches `max_retries` (with `reraise=True` the last attempt's
exception is raised, and the `except RetryError` fallback on lines 171-175
re-raises that same last exception).  Side effects on the shared limiter
are recorded in `Effects`: each attempt performs exactly one blocking
`rate_limiter.acquire()`, and each 429 response additionally calls
`rate_limiter.wait_for_retry(retry_after)` before its exception is raised. -/

/-- Raw outcome of one `httpx` request attempt as seen by `_make_request`:
one of the three caught transport exceptions, or a response with status
code, optional `Retry-After` header, parsed error body (already including
the `{"message": response.text}` fallback for unparseable bodies) and
parsed success payload. -/
inductive HttpResult where
  | timeoutExc (msg : String)
  | connectExc (msg : String)
  | httpExc (msg : String)
  | response (status : Int) (retry_after_header : Option Int)
      (body : List (String × Json)) (payload : Json)

/-- Rate-limiter side effects of part of a `request` call: how many
`acquire()` calls ran (one per attempt) and which `wait_for_retry(seconds)`
calls ran, in order.  A call with effects `⟨0, []⟩` leaves the shared
rate limiter untouched, hence unchanged. -/
structure Effects where
  acquires : Nat
  waits : List Int
deriving DecidableEq, Repr

/-- Sequential composition of effects. -/
def Effects.append (e1 e2 : Effects) : Effects :=
  ⟨e1.acquires + e2.acquires, e1.waits ++ e2.waits⟩

/-- Embedding of `NotionClient._make_request` (`base.py` lines 85-127) on
one raw outcome: the classified result plus the limiter effects of the
attempt.  Transport exceptions become `NetworkError`s with the messages
built on lines 103-108; a 429 triggers `wait_for_retry` with the
`Retry-After` header value (default 1) and raises
`RateLimitError("Rate limit exceeded", retry_after=retry_after)`; any other
status of at least 400 raises `exception_from_response(status, body)`;
otherwise the parsed payload is returned. -/
def make_request (r : HttpResult) : Except NotionCLIError Json × Effects :=
  match r with
  | .timeoutExc m =>
    (.error ⟨.networkError, .str ("Request timed out: " ++ m), []⟩, ⟨1, []⟩)
  | .connectExc m =>
    (.error ⟨.networkError, .str ("Connection failed: " ++ m), []⟩, ⟨1, []⟩)
  | .httpExc m =>
    (.error ⟨.networkError, .str ("HTTP error: " ++ m), []⟩, ⟨1, []⟩)
  | .response status hdr body payload =>
    if status = 429 then
      let retry_after := hdr.getD 1
      (.error (mkRateLimitError (.str "Rate limit exceeded") (some retry_after) 0),
       ⟨1, [retry_after]⟩)
    else if 400 ≤ status then
      (.error (exception_from_response status body), ⟨1, []⟩)
    else
      (.ok payload, ⟨1, []⟩)

/-- The retry predicate: `NotionClient._should_retry` (`base.py` lines
75-83) and, identically, the decorator's
`retry_if_exception_type((RateLimitError, ServerError, NetworkError))`. -/
def should_retry (e : NotionCLIError) : Bool :=
  e.kind = .rateLimited || e.kind = .serverError || e.kind = .networkError

/-- The tenacity retry loop around `_make_request` (`base.py` lines
158-167), run from attempt number `attempt_number` against the remaining
trace.  A successful attempt returns its payload; a non-retryable error is
raised immediately; a retryable error is raised itself when
`attempt_number` has reached `max_retries`, and otherwise the next attempt
runs after the backoff sleep.  `none` means the trace ended before the
loop returned. -/
def retryLoop (max_retries : Nat) (attempt_number : Nat) :
    List HttpResult → Option (Except NotionCLIError Json) × Effects
  | [] => (none, ⟨0, []⟩)
  | r :: rest =>
    let (res, eff) := make_request r
    match res with
    | .ok v => (some (.ok v), eff)
    | .error e =>
      if ¬ should_retry e then (some (.error e), eff)
      else if max_retries ≤ attempt_number then (some (.error e), eff)
      else
        let (res2, eff2) := retryLoop max_retries (attempt_number + 1) rest
        (res2, eff.append eff2)

/-- Result of one modelled `NotionClient.request` call: the value returned
or error raised (`none` if the trace ran out), the cache state after the
call, and the rate-limiter effects of the call. -/
structure RequestResult where
  result : Option (Except NotionCLIError Json)
  cache : Cache
  effects : Effects

/-- Embedding of `NotionClient.request` (`base.py` lines 129-181).
`settings_use_cache` is `self.settings.use_cache`, `use_cache` the per-call
override, `trace` the raw outcomes of the network attempts the call would
make, `now` the wall-clock second used for cache expiry.  Steps exactly as
in the source: compute `should_cache`; for a cached GET look up the cache
and return a hit immediately; otherwise run the retry loop; on success of a
cached GET store the result (default TTL). -/
def NotionClient.request (settings_use_cache : Bool) (max_retries : Nat)
    (cache : Cache) (method endpoint : String) (params : Option Params)
    (use_cache : Option Bool) (trace : List HttpResult) (now : Nat) :
    RequestResult :=
  let should_cache := use_cache.getD settings_use_cache
  let lookup :=
    if method = "GET" ∧ should_cache then cache.get endpoint params now
    else (none, cache)
  match lookup with
  | (some cached, c1) => ⟨some (.ok cached), c1, ⟨0, []⟩⟩
  | (none, c1) =>
    let (res, eff) := retryLoop max_retries 1 trace
    match res with
    | some (.ok v) =>
      let c2 :=
        if method = "GET" ∧ should_cache then c1.set endpoint params v none now
        else c1
      ⟨some (.ok v), c2, eff⟩
    | other => ⟨other, c1, eff⟩

/-! ### Markdown renderer, rich text (`src/notion_cli/output/markdown.py`)

Rich-text runs are the dict entries of a `rich_text` array.  A run is
modelled with the fields the renderer reads: `type`, `text.content`,
`text.link.url` (present iff the `link` dict is truthy), the mention
payload, `equation.expression`, `plain_text`, the annotation booleans and
the top-level `href` (`none` models both a missing key and Python-falsy
`None`; the empty string is falsy too and is checked explicitly where the
source tests `if href`). -/

/-- The five annotation booleans (absent keys read as false via `.get`). -/
structure Annotations where
  bold : Bool := false
  italic : Bool := false
  strikethrough : Bool := false
  underline : Bool := false
  code : Bool := false
deriving DecidableEq, Repr

/-- Mention payloads as dispatched by `_render_mention` (lines 101-128):
the subtype tag plus the fields each branch reads.  `other` covers every
unrecognized subtype. -/
inductive Mention where
  | user (name : String)
  | page (id : String)
  | database (id : String)
  | date (start : String) (stop : Option String)
  | link_preview (url : String)
  | other
deriving DecidableEq, Repr

/-- One rich-text run. -/
structure RichText where
  type : String := "text"
  content : String := ""
  link : Option String := none
  mention : Mention := .other
  expression : String := ""
  plain_text : String := ""
  annotations : Annotations := {}
  href : Option String := none
deriving DecidableEq, Repr

/-- Models `s.startswith("[")` for the one-character pattern used on line
96: true iff the first character is a left bracket. -/
def startsWithBracket (s : String) : Bool :=
  s.data.head? = some '['

/-- Models `s.endswith("\n")` for the one-character pattern used on line
54: true iff the last character is a newline. -/
def endsWithNewline (s : String) : Bool :=
  s.data.getLast? = some '\n'

/-- Embedding of `MarkdownRenderer._apply_annotations` (lines 130-148):
wrapping order code, bold, italic, strikethrough, underline; empty content
is returned unchanged; colors are dropped. -/
def apply_annotations (text : String) (a : Annotations) : String :=
  if text = "" then text
  else
    let t1 := if a.code then "`" ++ text ++ "`" else text
    let t2 := if a.bold then "**" ++ t1 ++ "**" else t1
    let t3 := if a.italic then "*" ++ t2 ++ "*" else t2
    let t4 := if a.strikethrough then "~~" ++ t3 ++ "~~" else t3
    if a.underline then "<u>" ++ t4 ++ "</u>" else t4

/-- Embedding of `MarkdownRenderer._render_mention` (lines 101-128). -/
def render_mention : Mention → String
  | .user name => "@" ++ name
  | .page id => "[Page](" ++ id ++ ")"
  | .database id => "[Database](" ++ id ++ ")"
  | .date start none => start
  | .date start (some e) => start ++ " → " ++ e
  | .link_preview url => "[Link](" ++ url ++ ")"
  | .other => "[mention]"

/-- The tail of `_render_text_segment` shared by all non-equation branches
(lines 90-99): apply the annotations, then wrap with the top-level `href`
when `href` is truthy and the content does not already start with `[`. -/
def finish_segment (seg : RichText) (content : String) : String :=
  let c := apply_annotations content seg.annotations
  match seg.href with
  | some h => if h ≠ "" ∧ ¬ startsWithBracket c then "[" ++ c ++ "](" ++ h ++ ")" else c
  | none => c

/-- Embedding of `MarkdownRenderer._render_text_segment` (lines 71-99).
The equation branch returns early, skipping annotations and `href`. -/
def render_text_segment (seg : RichText) : String :=
  if seg.type = "text" then
    finish_segment seg
      (match seg.link with
       | some url => "[" ++ seg.content ++ "](" ++ url ++ ")"
       | none => seg.content)
  else if seg.type = "mention" then
    finish_segment seg (render_mention seg.mention)
  else if seg.type = "equation" then
    "$" ++ seg.expression ++ "$"
  else
    finish_segment seg seg.plain_text

/-- Embedding of `MarkdownRenderer.render_rich_text` (lines 59-69):
concatenation of the rendered runs (empty list renders as `""`). -/
def render_rich_text (rich_text : List RichText) : String :=
  String.join (rich_text.map render_text_segment)

/-! ### Markdown renderer, blocks (`src/notion_cli/output/markdown.py`)

A content block is a recursive tagged record.  The model carries the
fields read by the handlers embedded here: the `type` tag, the payload's
`rich_text` array, the to-do `checked` flag, the `table_row` payload's
`cells` matrix, and the `children` list.  The handlers embedded are
exactly those involved in the claims and in the container bookkeeping of
`render_block`: paragraph, the three headings, bulleted/numbered list
items, to-do, quote, divider, toggle, table, table_row, column_list,
column, synced_block, breadcrumb, table_of_contents, and the unsupported
fallback (`getattr` finding no handler).  Blocks of the remaining types
(media, links, code, callout, ...) are not referenced by any claim; in the
model they fall to the unsupported arm.

The renderer's mutable state (`__init__`, lines 11-13) is the
depth-indexed numbered-list counter dict and the last rendered block type;
it is threaded explicitly. -/

/-- One content block (a Notion block dict as the renderer reads it). -/
inductive Block where
  | mk (type : String) (rich_text : List RichText) (checked : Bool)
      (cells : List (List RichText)) (children : List Block)

/-- The block's `type` tag. -/
def Block.type : Block → String
  | .mk t _ _ _ _ => t

/-- The payload's `rich_text` array. -/
def Block.rich_text : Block → List RichText
  | .mk _ r _ _ _ => r

/-- The to-do payload's `checked` flag. -/
def Block.checked : Block → Bool
  | .mk _ _ c _ _ => c

/-- The `table_row` payload's `cells` matrix. -/
def Block.cells : Block → List (List RichText)
  | .mk _ _ _ cs _ => cs

/-- The block's `children` list. -/
def Block.children : Block → List Block
  | .mk _ _ _ _ ch => ch

/-- Renderer state: `_numbered_list_counters` (a dict from nesting depth to
running count, modelled as an association list) and `_last_block_type`. -/
structure RState where
  numbered_list_counters : List (Nat × Nat)
  last_block_type : Option String
deriving DecidableEq, Repr

/-- The state of a freshly constructed `MarkdownRenderer`. -/
def RState.init : RState :=
  { numbered_list_counters := [], last_block_type := none }

/-- Dict lookup on the counter map (`depth in counters` / `counters[depth]`). -/
def countersLookup : List (Nat × Nat) → Nat → Option Nat
  | [], _ => none
  | (k, v) :: rest, d => if k = d then some v else countersLookup rest d

/-- Dict assignment on the counter map (`counters[depth] = v`). -/
def countersInsert : List (Nat × Nat) → Nat → Nat → List (Nat × Nat)
  | [], d, v => [(d, v)]
  | (k, w) :: rest, d, v =>
    if k = d then (d, v) :: rest else (k, w) :: countersInsert rest d v

/-- Python `"  " * depth` (the `if depth > 0 else ""` guard on line 156 is
redundant: the product is already `""` at depth 0). -/
def indentStr (depth : Nat) : String :=
  String.join (List.replicate depth "  ")

/-- Embedding of `MarkdownRenderer._render_numbered_list_item` (lines
184-200): ensure a counter exists for this depth, increment it, delete
every counter at a strictly greater depth, then render with the counter
value as ordinal. -/
def render_numbered_list_item (st : RState) (rich : List RichText) (depth : Nat) :
    String × RState :=
  let text := render_rich_text rich
  let c0 := st.numbered_list_counters
  let c1 := if (countersLookup c0 depth).isNone then countersInsert c0 depth 0 else c0
  let c2 := countersInsert c1 depth ((countersLookup c1 depth).getD 0 + 1)
  let c3 := c2.filter (fun kv => decide (kv.1 ≤ depth))
  let number := (countersLookup c3 depth).getD 0
  (indentStr depth ++ toString number ++ ". " ++ text ++ "\n",
   { st with numbered_list_counters := c3 })

/-- One pipe-table line of `_render_table` (lines 292-298): the row's cells
rendered, padded with empty cells up to the column count. -/
def renderTableRowLine (indent : String) (col_count : Nat) (row : Block) : String :=
  let cell_texts := (Block.cells row).map render_rich_text
  let padded := cell_texts ++ List.replicate (col_count - cell_texts.length) ""
  indent ++ "| " ++ String.intercalate " | " padded ++ " |"

/-- Embedding of `MarkdownRenderer._render_table` (lines 279-304): the
first child row fixes the column count, a `---` separator row follows the
header row.  (The handler never recurses into `render_block`.) -/
def renderTable (depth : Nat) (children : List Block) : String :=
  match children with
  | [] => ""
  | first :: rest =>
    let col_count := (Block.cells first).length
    let indent := indentStr depth
    let sep := indent ++ "|" ++ String.intercalate "|" (List.replicate col_count "---") ++ "|"
    let lines := renderTableRowLine indent col_count first :: sep ::
      rest.map (renderTableRowLine indent col_count)
    String.intercalate "\n" lines ++ "\n"

mutual

/-- Embedding of `MarkdownRenderer.render_block` (lines 28-57): reset the
numbered-list counters when a non-numbered block follows a numbered one,
record the block type, dispatch on the type, then re-read the block's
`children` (line 45 runs after the dispatch, so it sees the toggle
handler's in-place clearing on line 274, modelled by `children_after`) and
append their renderings at `depth + 1` unless the list is empty or the type
is `table` or `column_list`. -/
def renderBlock (st : RState) (b : Block) (depth : Nat) : String × RState :=
  match b with
  | .mk bt rich checked _cells children =>
    let st1 :=
      if bt ≠ "numbered_list_item" ∧ st.last_block_type = some "numbered_list_item" then
        { st with numbered_list_counters := [] }
      else st
    let st2 := { st1 with last_block_type := some bt }
    let dispatched : String × RState :=
      if bt = "paragraph" then
        (indentStr depth ++ render_rich_text rich ++ "\n", st2)
      else if bt = "heading_1" then ("# " ++ render_rich_text rich ++ "\n", st2)
      else if bt = "heading_2" then ("## " ++ render_rich_text rich ++ "\n", st2)
      else if bt = "heading_3" then ("### " ++ render_rich_text rich ++ "\n", st2)
      else if bt = "bulleted_list_item" then
        (indentStr depth ++ "- " ++ render_rich_text rich ++ "\n", st2)
      else if bt = "numbered_list_item" then render_numbered_list_item st2 rich depth
      else if bt = "to_do" then
        (indentStr depth ++ "- " ++ (if checked then "[x]" else "[ ]") ++ " " ++
          render_rich_text rich ++ "\n", st2)
      else if bt = "quote" then
        (String.intercalate "\n"
          (((render_rich_text rich).splitOn "\n").map
            (fun line => indentStr depth ++ "> " ++ line)) ++ "\n", st2)
      else if bt = "divider" then (indentStr depth ++ "---\n", st2)
      else if bt = "toggle" then
        let text := render_rich_text rich
        let indent := indentStr depth
        let opening := indent ++ "<details>\n" ++ indent ++ "<summary>" ++ text ++
          "</summary>\n\n"
        let (inner, st3) := renderKidsConcat st2 children (depth + 1)
        (opening ++ inner ++ "\n" ++ indent ++ "</details>\n", st3)
      else if bt = "table" then (renderTable depth children, st2)
      else if bt = "table_row" then ("", st2)
      else if bt = "column_list" then renderColumns st2 children 0 depth
      else if bt = "column" then ("", st2)
      else if bt = "synced_block" then ("", st2)
      else if bt = "breadcrumb" then ("", st2)
      else if bt = "table_of_contents" then ("[Table of Contents]\n", st2)
      else (indentStr depth ++ "[unsupported: " ++ bt ++ "]\n", st2)
    let (result, st4) := dispatched
    let children_after := if bt = "toggle" then [] else children
    if ¬ children_after.isEmpty ∧ ¬ (bt = "table" ∨ bt = "column_list") then
      -- When the guard holds the type is not toggle, so `children_after`
      -- is exactly `children`; the loop runs over it (written as
      -- `children` so the recursion is structural).
      let (child_lines, st5) := renderKidsLines st4 children (depth + 1)
      if child_lines ≠ [] then
        let r := result ++ String.intercalate "\n" child_lines
        (if endsWithNewline r then r else r ++ "\n", st5)
      else (result, st5)
    else (result, st4)

/-- The child-rendering loop shared by `render_blocks` (lines 20-24) and
the generic child-append step (lines 47-51): render each block in order,
keeping the non-empty renderings as separate lines. -/
def renderKidsLines (st : RState) (bs : List Block) (depth : Nat) :
    List String × RState :=
  match bs with
  | [] => ([], st)
  | c :: cs =>
    let (r, st1) := renderBlock st c depth
    let (rs, st2) := renderKidsLines st1 cs depth
    ((if r ≠ "" then [r] else []) ++ rs, st2)

/-- The child-rendering loop of the toggle handler (lines 267-272) and of
each column (lines 321-324): render each block in order and concatenate
(appending an empty rendering is a no-op, so this is plain concatenation). -/
def renderKidsConcat (st : RState) (bs : List Block) (depth : Nat) :
    String × RState :=
  match bs with
  | [] => ("", st)
  | c :: cs =>
    let (r, st1) := renderBlock st c depth
    let (rs, st2) := renderKidsConcat st1 cs depth
    (r ++ rs, st2)

/-- Embedding of `MarkdownRenderer._render_column_list` (lines 310-327):
each column with a non-empty `children` list contributes an HTML marker
comment, its children rendered sequentially at the same depth, and a
trailing newline.  (`if not children: return ""` is the `[]` case.) -/
def renderColumns (st : RState) (cols : List Block) (i : Nat) (depth : Nat) :
    String × RState :=
  match cols with
  | [] => ("", st)
  | .mk _ _ _ _ colChildren :: rest =>
    let (part, st1) :=
      if ¬ colChildren.isEmpty then
        let (inner, stc) := renderKidsConcat st colChildren depth
        ("<!-- Column " ++ toString (i + 1) ++ " -->\n" ++ inner ++ "\n", stc)
      else ("", st)
    let (parts, st2) := renderColumns st1 rest (i + 1) depth
    (part ++ parts, st2)

end

/-- Embedding of `MarkdownRenderer.render_blocks` (lines 15-26) on renderer
state `st`: top-level blocks rendered at depth 0, non-empty renderings
joined with newlines (the empty list yields `""`). -/
def render_blocks (st : RState) (blocks : List Block) : String :=
  String.intercalate "\n" (renderKidsLines st blocks 0).1

/-! ### Test fixtures used in theorem statements -/

/-- A plain text run with the given content (no annotations, no links). -/
def plainRun (s : String) : RichText := { content := s }

/-- A `numbered_list_item` block with plain text and no children. -/
def numberedItem (s : String) : Block :=
  .mk "numbered_list_item" [plainRun s] false [] []

/-- A `paragraph` block with plain text and no children. -/
def paragraphBlock (s : String) : Block :=
  .mk "paragraph" [plainRun s] false [] []

/-- The rich-text run refuting claim C9: a `text` run carrying a
`text.link`, a bold annotation, and a top-level `href`. -/
def c9run : RichText :=
  { content := "x", link := some "u", annotations := { bold := true },
    href := some "h" }

/-- The run witnessing the amended C9: bold annotated text, no link, an
href. -/
def c9amendedRun : RichText :=
  { content := "y", annotations := { bold := true }, href := some "h" }

/-! ### Theorems -/

/-- Claim C3: the error classifier is a total function of (status, body) —
`exception_from_response` is total by construction, so it cannot throw —
and for every status and body its kind agrees with the documented table
(400 Validation, 401 Authentication, 403 PermissionDenied, 404 NotFound,
409 Conflict, 429 RateLimit, at least 500 Server, otherwise Unknown), and
every unmapped status yields an Unknown-kind error carrying the raw status
code in its structured details. -/
theorem C3_classifier_total_table :
    ∀ (status : Int) (body : List (String × Json)),
      (exception_from_response status body).kind = classifyKindSpec status ∧
      (classifyKindSpec status = .unknown →
        ("status_code", Json.num status) ∈ (exception_from_response status body).details) := by
  intro status body
  constructor
  · simp only [exception_from_response, classifyKindSpec, mkRateLimitError]
    split_ifs
    all_goals rfl
  · intro h
    simp only [classifyKindSpec] at h
    simp only [exception_from_response, mkRateLimitError]
    split_ifs at h ⊢
    all_goals simp_all

/-- Witness for C3 at the unmapped status 418 with an empty body: the raw
status code is present in the structured details of the Unknown error. -/
theorem C3_classifier_total_table_witness :
    ("status_code", Json.num 418) ∈ (exception_from_response 418 []).details :=
  (C3_classifier_total_table 418 []).2 (by decide)

/-- Looking up the key just written finds the written entry. -/
theorem storeLookup_insert_self (store : List (CacheKey × (Json × Nat)))
    (k : CacheKey) (v : Json × Nat) : storeLookup (storeInsert store k v) k = some v := by
  induction store with
  | nil => simp [storeInsert, storeLookup]
  | cons hd tl ih =>
    obtain ⟨k1, v1⟩ := hd
    by_cases h : k1 = k
    · simp [storeInsert, storeLookup, h]
    · simp [storeInsert, storeLookup, h, ih]

/-- Writing under one key leaves lookups of a different key unchanged. -/
theorem storeLookup_insert_ne (store : List (CacheKey × (Json × Nat)))
    (k1 k2 : CacheKey) (v : Json × Nat) (h : k1 ≠ k2) :
    storeLookup (storeInsert store k1 v) k2 = storeLookup store k2 := by
  induction store with
  | nil => simp [storeInsert, storeLookup, h]
  | cons hd tl ih =>
    obtain ⟨ka, va⟩ := hd
    by_cases hk : ka = k1
    · subst hk
      simp [storeInsert, storeLookup, h]
    · simp [storeInsert, storeLookup, hk, ih]

/-- Claim C4: cache algebra.  With the cache enabled, a `set` followed by a
`get` of the same endpoint/params within the TTL returns the stored value;
a `get` on a fresh cache (nothing ever set) is absent; writes under two
different params maps for the same endpoint are independent; and with
`enabled = false`, `get` is always absent and leaves the state untouched,
and `set` is a complete no-op — in particular neither flips `initialized`,
i.e. neither creates the on-disk backing store. -/
theorem C4_cache_algebra :
    (∀ (c : Cache) (e : String) (p : Option Params) (v : Json)
        (now t : Nat) (ttl : Option Nat),
        c.enabled = true → t < now + ttl.getD c.default_ttl →
        ((c.set e p v ttl now).get e p t).1 = some v) ∧
    (∀ (enabled : Bool) (default_ttl : Nat) (e : String) (p : Option Params)
        (now : Nat),
        ((Cache.init enabled default_ttl).get e p now).1 = none) ∧
    (∀ (c : Cache) (e : String) (p1 p2 : Option Params) (v : Json)
        (now t : Nat) (ttl : Option Nat),
        canonParams p1 ≠ canonParams p2 →
        ((c.set e p1 v ttl now).get e p2 t).1 = (c.get e p2 t).1) ∧
    (∀ (c : Cache) (e : String) (p : Option Params) (v : Json) (now : Nat)
        (ttl : Option Nat),
        c.enabled = false →
        c.get e p now = (none, c) ∧ c.set e p v ttl now = c) := by
  refine ⟨?_, ?_, ?_, ?_⟩
  · intro c e p v now t ttl hen ht
    simp [Cache.set, Cache.get, hen, storeLookup_insert_self, ht]
  · intro enabled default_ttl e p now
    by_cases hen : enabled
    · simp [Cache.init, Cache.get, hen, storeLookup]
    · simp [Cache.init, Cache.get, hen]
  · intro c e p1 p2 v now t ttl hne
    have hkey : make_key e p1 ≠ make_key e p2 := by
      intro h
      exact hne (congrArg Prod.snd h)
    by_cases hen : c.enabled
    · simp [Cache.set, Cache.get, hen]
      rw [storeLookup_insert_ne _ _ _ _ hkey]
      cases hl : storeLookup c.store (make_key e p2) with
      | none => simp
      | some pair =>
        obtain ⟨v2, expire⟩ := pair
        by_cases ht : t < expire
        · simp [ht]
        · simp [ht]
    · simp [Cache.set, Cache.get, hen]
  · intro c e p v now ttl hen
    constructor
    · simp [Cache.get, hen]
    · simp [Cache.set, hen]

/-- Witness for C4 at concrete inputs: a value stored for `/pages` with no
params is read back within the TTL; a fresh cache misses; storing under
params `a=1` does not affect the entry for `a=2`; and a disabled cache
ignores both operations without touching its state. -/
theorem C4_cache_algebra_witness :
    ((((Cache.init true 300).set "/pages" none (Json.str "ok") none 0).get
        "/pages" none 10).1 = some (Json.str "ok")) ∧
    (((Cache.init true 300).get "/x" none 0).1 = none) ∧
    ((((Cache.init true 300).set "/q" (some [("a", "1")]) (Json.str "v") none 0).get
        "/q" (some [("a", "2")]) 0).1 = ((Cache.init true 300).get "/q" (some [("a", "2")]) 0).1) ∧
    ((Cache.init false 300).get "/pages" none 0 = (none, Cache.init false 300) ∧
      (Cache.init false 300).set "/pages" none (Json.str "ok") none 0 = Cache.init false 300) :=
  ⟨C4_cache_algebra.1 (Cache.init true 300) "/pages" none (Json.str "ok") 0 10 none rfl
      (by norm_num [Cache.init]),
   C4_cache_algebra.2.1 true 300 "/x" none 0,
   C4_cache_algebra.2.2.1 (Cache.init true 300) "/q" (some [("a", "1")])
      (some [("a", "2")]) (Json.str "v") 0 0 none (by decide),
   C4_cache_algebra.2.2.2 (Cache.init false 300) "/pages" none (Json.str "ok") 0 none rfl⟩

/-- A single limiter operation whose clock sample is not earlier than the
current `last_refill` preserves the token invariant (rate assumed
non-negative, as the limiter is constructed with a positive
`requests_per_second`). -/
theorem RateLimiter.step_inv (rl : RateLimiter) (op : RLOp)
    (hr : 0 ≤ rl.requests_per_second) (hinv : rl.Inv)
    (ht : rl.last_refill ≤ op.now) : (rl.step op).Inv := by
  obtain ⟨h0, hc⟩ := hinv
  have hcap : (0 : ℚ) ≤ (rl.max_burst : ℚ) := by positivity
  cases op with
  | refillOp now =>
    have helapsed : 0 ≤ now - rl.last_refill := by
      simpa [RLOp.now] using sub_nonneg.mpr ht
    constructor
    · simp only [RateLimiter.step, RateLimiter.refill]
      exact le_min hcap (by nlinarith)
    · simp only [RateLimiter.step, RateLimiter.refill]
      exact min_le_left _ _
  | acquireStep now =>
    have helapsed : 0 ≤ now - rl.last_refill := by
      simpa [RLOp.now] using sub_nonneg.mpr ht
    have href0 : 0 ≤ (rl.refill now).tokens := by
      simp only [RateLimiter.refill]
      exact le_min hcap (by nlinarith)
    have hrefc : (rl.refill now).tokens ≤ (rl.max_burst : ℚ) := by
      simp only [RateLimiter.refill]
      exact min_le_left _ _
    simp only [RateLimiter.step]
    by_cases h1 : 1 ≤ (rl.refill now).tokens
    · rw [if_pos h1]
      refine ⟨?_, ?_⟩
      · show (0 : ℚ) ≤ (rl.refill now).tokens - 1
        linarith
      · show (rl.refill now).tokens - 1 ≤ ((rl.max_burst : ℚ))
        linarith
    · rw [if_neg h1]
      exact ⟨href0, hrefc⟩
  | reset now => exact ⟨hcap, le_refl _⟩
  | waitForRetry now => exact ⟨hcap, le_refl _⟩

/-- A limiter operation neither changes the configured rate nor the burst
capacity, and it sets `last_refill` to its own clock sample. -/
theorem RateLimiter.step_frame (rl : RateLimiter) (op : RLOp) :
    (rl.step op).requests_per_second = rl.requests_per_second ∧
    (rl.step op).max_burst = rl.max_burst := by
  cases op with
  | refillOp now => exact ⟨rfl, rfl⟩
  | acquireStep now =>
    simp only [RateLimiter.step]
    by_cases h1 : 1 ≤ (rl.refill now).tokens
    · rw [if_pos h1]; exact ⟨rfl, rfl⟩
    · rw [if_neg h1]; exact ⟨rfl, rfl⟩
  | reset now => exact ⟨rfl, rfl⟩
  | waitForRetry now => exact ⟨rfl, rfl⟩

/-- Claim C5: across every sequence of limiter operations (refills,
acquire steps, resets, `wait_for_retry` resets) whose clock samples are
monotonic, the invariant `0 ≤ tokens ≤ max_burst` is preserved: the refill
clamps at capacity, `acquire` only decrements when at least one token is
present, and the resets set the bucket to exactly its capacity, so no
operation drives the count negative or above capacity. -/
theorem C5_rate_limiter_invariant :
    ∀ (rl : RateLimiter) (ops : List RLOp),
      0 ≤ rl.requests_per_second → rl.Inv → validTimes rl ops →
      (rl.steps ops).Inv := by
  intro rl ops
  induction ops generalizing rl with
  | nil => intro _ hinv _; exact hinv
  | cons op rest ih =>
    intro hr hinv hval
    obtain ⟨hop, hrest⟩ := hval
    have hstep := RateLimiter.step_inv rl op hr hinv hop
    have hframe := RateLimiter.step_frame rl op
    exact ih (rl.step op) (hframe.1 ▸ hr) hstep hrest

/-- Witness for C5: a freshly built limiter (3 requests per second, burst
5) run through a refill, two acquire steps, a `wait_for_retry` reset and a
final acquire at increasing clock samples keeps `0 ≤ tokens ≤ 5`. -/
theorem C5_rate_limiter_invariant_witness :
    ((RateLimiter.mkInit 3 5 0).steps
      [.refillOp 1, .acquireStep 1, .acquireStep 2, .waitForRetry 3,
       .acquireStep 4]).Inv :=
  C5_rate_limiter_invariant (RateLimiter.mkInit 3 5 0)
    [.refillOp 1, .acquireStep 1, .acquireStep 2, .waitForRetry 3, .acquireStep 4]
    (by norm_num [RateLimiter.mkInit])
    (by constructor <;> norm_num [RateLimiter.mkInit])
    (by
      repeat' constructor
      all_goals norm_num [RateLimiter.mkInit, RateLimiter.step, RateLimiter.refill,
        RLOp.now, validTimes])

/-- Refilling with a clock sample not earlier than the last refill never
lowers the token count (the clamp at capacity cannot bite below the
current count because the invariant keeps the count at most capacity). -/
theorem RateLimiter.refill_mono (rl : RateLimiter) (now : ℚ)
    (hr : 0 ≤ rl.requests_per_second) (hinv : rl.Inv)
    (ht : rl.last_refill ≤ now) : rl.tokens ≤ (rl.refill now).tokens := by
  obtain ⟨h0, hc⟩ := hinv
  have helapsed : 0 ≤ now - rl.last_refill := sub_nonneg.mpr ht
  simp only [RateLimiter.refill]
  exact le_min hc (by nlinarith)

/-- Relaxing the lower bound of a monotone clock stream. -/
theorem ClocksMono.weaken {x y : ℚ} (hxy : x ≤ y) :
    ∀ {l : List ℚ}, ClocksMono y l → ClocksMono x l := by
  intro l h
  cases l with
  | nil => trivial
  | cons c cs => exact ⟨le_trans hxy h.1, h.2⟩

/-- Body of claim C6, proved by strong induction on the clock stream: if
`acquire(timeout=t)` returns `False`, the token count has not been
decremented (the only state changes were non-decreasing refills) and the
bucket still holds less than one token. -/
theorem acquireLoop_false_no_consume :
    ∀ (n : Nat) (clocks : List ℚ) (rl : RateLimiter) (t start : ℚ)
      (rl2 : RateLimiter),
      clocks.length ≤ n →
      0 ≤ rl.requests_per_second → rl.Inv →
      ClocksMono rl.last_refill clocks →
      acquireLoop rl (some t) start clocks = (some false, rl2) →
      rl.tokens ≤ rl2.tokens ∧ rl2.tokens < 1 := by
  intro n
  induction n with
  | zero =>
    intro clocks rl t start rl2 hlen _ _ _ heq
    rw [List.length_eq_zero.mp (Nat.le_zero.mp hlen)] at heq
    rw [acquireLoop.eq_def] at heq
    simp at heq
  | succ n ih =>
    intro clocks rl t start rl2 hlen hr hinv hmono heq
    cases clocks with
    | nil =>
      rw [acquireLoop.eq_def] at heq
      simp at heq
    | cons now rest =>
      obtain ⟨hnow, hmono1⟩ := hmono
      have hinv1 : (rl.refill now).Inv :=
        RateLimiter.step_inv rl (.refillOp now) hr hinv hnow
      have hmon1 : rl.tokens ≤ (rl.refill now).tokens :=
        RateLimiter.refill_mono rl now hr hinv hnow
      rw [acquireLoop.eq_def] at heq
      by_cases h1 : 1 ≤ (rl.refill now).tokens
      · simp [h1] at heq
      · cases rest with
        | nil => simp [h1] at heq
        | cons now2 rest2 =>
          by_cases hrem : t - (now2 - start) ≤ 0
          · simp [h1, hrem] at heq
            rw [← heq]
            exact ⟨hmon1, lt_of_not_le h1⟩
          · simp [h1, hrem] at heq
            have hrec := ih rest2 (rl.refill now) t start rl2
              (by simpa using Nat.le_of_succ_le_succ (le_trans (by simp) hlen))
              (by exact hr) hinv1
              (ClocksMono.weaken hmono1.1 hmono1.2) heq
            exact ⟨le_trans hmon1 hrec.1, hrec.2⟩

/-- Claim C6: when the wait needed for a token exceeds the timeout,
`acquire(timeout=t)` returns `False` — a value, not an exception (the model
is a total function into `Bool`) — and the failed call consumes no token:
the count after the call is at least the count before, and still below 1.
The first part states this for every monotone clock stream; the second
shows the `False` return actually triggers whenever no token is available
at the first refill and the next clock sample already exceeds the timeout
budget. -/
theorem C6_acquire_timeout_returns_false :
    (∀ (clocks : List ℚ) (rl : RateLimiter) (t start : ℚ) (rl2 : RateLimiter),
       0 ≤ rl.requests_per_second → rl.Inv →
       ClocksMono rl.last_refill clocks →
       acquireLoop rl (some t) start clocks = (some false, rl2) →
       rl.tokens ≤ rl2.tokens ∧ rl2.tokens < 1) ∧
    (∀ (rl : RateLimiter) (t start c1 c2 : ℚ),
       ¬ 1 ≤ (rl.refill c1).tokens → t ≤ c2 - start →
       acquireLoop rl (some t) start [c1, c2] = (some false, rl.refill c1)) := by
  constructor
  · intro clocks rl t start rl2 hr hinv hmono heq
    exact acquireLoop_false_no_consume clocks.length clocks rl t start rl2
      (le_refl _) hr hinv hmono heq
  · intro rl t start c1 c2 h1 hle
    have hrem : t - (c2 - start) ≤ 0 := sub_nonpos.mpr hle
    rw [acquireLoop.eq_def]
    simp [h1, hrem]

/-- Witness for C6: a limiter with one-token capacity, an empty bucket and
rate 1 asked for a token with timeout 1/2 while the next clock sample is
already 1 second in: the call returns `False`, and the state after (the
refill at time 0) holds no more tokens than before and fewer than one. -/
theorem C6_acquire_timeout_returns_false_witness :
    acquireLoop ⟨1, 1, 0, 0⟩ (some (1/2)) 0 [0, 1] = (some false, RateLimiter.refill ⟨1, 1, 0, 0⟩ 0) ∧
    ((⟨1, 1, 0, 0⟩ : RateLimiter).tokens ≤ (RateLimiter.refill ⟨1, 1, 0, 0⟩ 0).tokens ∧
      (RateLimiter.refill ⟨1, 1, 0, 0⟩ 0).tokens < 1) := by
  have h1 : ¬ (1 : ℚ) ≤ (RateLimiter.refill ⟨1, 1, 0, 0⟩ 0).tokens := by
    norm_num [RateLimiter.refill]
  have heq := C6_acquire_timeout_returns_false.2 ⟨1, 1, 0, 0⟩ (1/2) 0 0 1 h1
    (by norm_num)
  refine ⟨heq, ?_⟩
  exact C6_acquire_timeout_returns_false.1 [0, 1] ⟨1, 1, 0, 0⟩ (1/2) 0
    (RateLimiter.refill ⟨1, 1, 0, 0⟩ 0) (by norm_num)
    ⟨by norm_num, by norm_num⟩
    ⟨by norm_num, by norm_num, trivial⟩ heq

/-- Characterization of the retry loop from an arbitrary attempt number
`a`: if the loop returns, the consumed attempts split the trace into
retried attempts `pre` (each a retryable failure made strictly below the
stop bound) and a final attempt `o` that either succeeded or whose
classified error is the returned one (a retryable final error implies the
attempt number had reached `max_retries`). -/
theorem retryLoop_go :
    ∀ (trace : List HttpResult) (a : Nat) (mr : Nat)
      (r : Except NotionCLIError Json),
      (retryLoop mr a trace).1 = some r →
      ∃ pre o rest, trace = pre ++ o :: rest ∧
        (∀ j, j < pre.length → a + j < mr) ∧
        (∀ x ∈ pre, ∃ e, (make_request x).1 = .error e ∧ should_retry e = true) ∧
        ((∃ v, (make_request o).1 = .ok v ∧ r = .ok v) ∨
         (∃ e, (make_request o).1 = .error e ∧ r = .error e ∧
            (should_retry e = true → mr ≤ a + pre.length))) := by
  intro trace
  induction trace with
  | nil =>
    intro a mr r h
    rw [retryLoop.eq_def] at h
    simp at h
  | cons r0 rest ih =>
    intro a mr r h
    rw [retryLoop.eq_def] at h
    dsimp only at h
    rcases hmk : make_request r0 with ⟨res, eff⟩
    rw [hmk] at h
    dsimp only at h
    cases res with
    | ok v =>
      simp at h
      exact ⟨[], r0, rest, by simp, by intro j hj; simp at hj, by simp,
        Or.inl ⟨v, by rw [hmk], by rw [← h]⟩⟩
    | error e =>
      by_cases hretry : should_retry e = true
      · by_cases hstop : mr ≤ a
        · simp [hretry, hstop] at h
          exact ⟨[], r0, rest, by simp, by intro j hj; simp at hj, by simp,
            Or.inr ⟨e, by rw [hmk], by rw [← h], fun _ => by simpa using hstop⟩⟩
        · simp [hretry, hstop] at h
          obtain ⟨pre, o, rest2, htr, hbud, hpre, hterm⟩ := ih (a + 1) mr r h
          refine ⟨r0 :: pre, o, rest2, by simp [htr], ?_, ?_, ?_⟩
          · intro j hj
            cases j with
            | zero => omega
            | succ j1 =>
              have := hbud j1 (by simpa using Nat.lt_of_succ_lt_succ hj)
              omega
          · intro x hx
            rcases List.mem_cons.mp hx with hx0 | hx1
            · exact ⟨e, by rw [hx0, hmk], hretry⟩
            · exact hpre x hx1
          · rcases hterm with hok | ⟨e2, he2, hre2, hcnt⟩
            · exact Or.inl hok
            · exact Or.inr ⟨e2, he2, hre2, fun hc => by
                have := hcnt hc
                simp only [List.length_cons]
                omega⟩
      · simp [hretry] at h
        exact ⟨[], r0, rest, by simp, by intro j hj; simp at hj, by simp,
          Or.inr ⟨e, by rw [hmk], by rw [← h], fun hc => absurd hc hretry⟩⟩

/-- Claim C1: the pipeline retries an attempt only when the classified
error is retryable (`RateLimitError`, `ServerError`, `NetworkError`, i.e.
the RateLimit, Server and Network kinds) and only while the attempt budget
`max_retries` is not exhausted; every attempt before the final one was such
a retryable failure, so any other kind surfaces on its very first
occurrence regardless of `max_retries`; and the error surfaced on
exhaustion is exactly the last attempt's classified error (never a
wrapper): the returned error is the one `make_request` produced for the
final consumed attempt. -/
theorem C1_retry_policy :
    ∀ (max_retries : Nat) (trace : List HttpResult)
      (r : Except NotionCLIError Json),
      1 ≤ max_retries →
      (retryLoop max_retries 1 trace).1 = some r →
      ∃ pre o rest,
        trace = pre ++ o :: rest ∧
        pre.length + 1 ≤ max_retries ∧
        (∀ x ∈ pre, ∃ e, (make_request x).1 = .error e ∧ should_retry e = true) ∧
        ((∃ v, (make_request o).1 = .ok v ∧ r = .ok v) ∨
         (∃ e, (make_request o).1 = .error e ∧ r = .error e ∧
            (should_retry e = true → pre.length + 1 = max_retries))) := by
  intro mr trace r hmr h
  obtain ⟨pre, o, rest, htr, hbud, hpre, hterm⟩ := retryLoop_go trace 1 mr r h
  have hlen : pre.length + 1 ≤ mr := by
    rcases Nat.eq_zero_or_pos pre.length with h0 | hpos
    · omega
    · have := hbud (pre.length - 1) (by omega)
      omega
  refine ⟨pre, o, rest, htr, hlen, hpre, ?_⟩
  rcases hterm with hok | ⟨e, he, hre, hcnt⟩
  · exact Or.inl hok
  · exact Or.inr ⟨e, he, hre, fun hc => by have := hcnt hc; omega⟩

/-- Witness for C1: with `max_retries = 5` and a trace of one 500 response
followed by a 200 response, the loop returns the 200 payload, and the
theorem's decomposition applies: the single retried attempt was a
retryable (Server) failure within budget. -/
theorem C1_retry_policy_witness :
    ∃ pre o rest,
      [HttpResult.response 500 none [] Json.null,
       HttpResult.response 200 none [] (Json.str "ok")] = pre ++ o :: rest ∧
      pre.length + 1 ≤ 5 ∧
      (∀ x ∈ pre, ∃ e, (make_request x).1 = .error e ∧ should_retry e = true) ∧
      ((∃ v, (make_request o).1 = .ok v ∧ (Except.ok (Json.str "ok") :
          Except NotionCLIError Json) = .ok v) ∨
       (∃ e, (make_request o).1 = .error e ∧ (Except.ok (Json.str "ok") :
          Except NotionCLIError Json) = .error e ∧
          (should_retry e = true → pre.length + 1 = 5))) :=
  C1_retry_policy 5
    [HttpResult.response 500 none [] Json.null,
     HttpResult.response 200 none [] (Json.str "ok")]
    (.ok (Json.str "ok")) (by omega) rfl

/-- A `get` on a cache whose backing store already exists returns the
cache state unchanged (the only state effect of `get` is the lazy store
creation). -/
theorem cache_get_snd_of_initialized (c : Cache) (e : String) (p : Option Params)
    (now : Nat) (h : c.initialized = true) : (c.get e p now).2 = c := by
  obtain ⟨en, dttl, ini, store⟩ := c
  simp only [Cache.initialized] at h
  subst h
  by_cases hen : en = true
  · simp only [Cache.get, hen]
    simp only [not_true_eq_false, if_false, Bool.true_eq_false]
    cases hl : storeLookup store (make_key e p) with
    | none => simp [hl]
    | some pair =>
      obtain ⟨v0, exp0⟩ := pair
      by_cases ht : now < exp0
      · simp [hl, ht]
      · simp [hl, ht]
  · simp [Cache.get, hen]

/-- Claim C2: on a GET with caching in effect (per-call override, else the
session default) and a fresh-enough cache entry, `request` returns the
cached value at once: the whole network trace is ignored (zero attempts),
no rate-limiter acquire or `wait_for_retry` runs (effects `⟨0, []⟩`, so
the shared limiter state is untouched), and the cache state is returned
exactly as it was. -/
theorem C2_cache_hit_frame :
    ∀ (settings_use_cache : Bool) (max_retries : Nat) (cache : Cache)
      (endpoint : String) (params : Option Params) (use_cache : Option Bool)
      (trace : List HttpResult) (now : Nat) (v : Json),
      use_cache.getD settings_use_cache = true →
      cache.initialized = true →
      (cache.get endpoint params now).1 = some v →
      NotionClient.request settings_use_cache max_retries cache "GET" endpoint
        params use_cache trace now = ⟨some (.ok v), cache, ⟨0, []⟩⟩ := by
  intro suc mr cache e p uc trace now v hsc hinit hget1
  have hget2 := cache_get_snd_of_initialized cache e p now hinit
  have hget : cache.get e p now = (some v, cache) := by
    cases hg : cache.get e p now with
    | mk a b =>
      rw [hg] at hget1 hget2
      simp only at hget1 hget2
      rw [hget1, hget2]
  simp [NotionClient.request, hsc, hget]

/-- Witness for C2: a cache holding the value for `/pages` returns it with
no attempt, no limiter effect and an unchanged cache. -/
theorem C2_cache_hit_frame_witness :
    NotionClient.request true 5
      ((Cache.init true 300).set "/pages" none (Json.str "cached") none 0)
      "GET" "/pages" none (some true) [HttpResult.response 200 none [] Json.null] 10 =
      ⟨some (.ok (Json.str "cached")),
        (Cache.init true 300).set "/pages" none (Json.str "cached") none 0, ⟨0, []⟩⟩ :=
  C2_cache_hit_frame true 5
    ((Cache.init true 300).set "/pages" none (Json.str "cached") none 0)
    "/pages" none (some true) [HttpResult.response 200 none [] Json.null] 10
    (Json.str "cached") rfl rfl rfl

/-- Every attempt performs exactly one rate-limiter acquire. -/
theorem make_request_acquires (r : HttpResult) : (make_request r).2.acquires = 1 := by
  cases r with
  | timeoutExc m => rfl
  | connectExc m => rfl
  | httpExc m => rfl
  | response status hdr body payload =>
    simp only [make_request]
    split_ifs
    all_goals rfl

/-- A non-empty trace makes the retry loop perform at least one attempt,
hence at least one rate-limiter acquire. -/
theorem retryLoop_acquires_pos (mr a : Nat) (trace : List HttpResult)
    (h : trace ≠ []) : 1 ≤ (retryLoop mr a trace).2.acquires := by
  cases trace with
  | nil => exact absurd rfl h
  | cons r0 rest =>
    rw [retryLoop.eq_def]
    dsimp only
    rcases hmk : make_request r0 with ⟨res, eff⟩
    have heff : eff.acquires = 1 := by
      have := make_request_acquires r0
      rw [hmk] at this
      exact this
    cases res with
    | ok v => simpa using heff.ge
    | error e =>
      by_cases hretry : should_retry e = true
      · by_cases hstop : mr ≤ a
        · simp only [hretry, hstop]
          simpa using heff.ge
        · simp only [hretry, hstop]
          rcases hrl : retryLoop mr (a + 1) rest with ⟨res2, eff2⟩
          simp [Effects.append, heff, hrl]
      · simp only [hretry]
        simpa using heff.ge

/-- Claim C10 (implicit): with a session cache constructed disabled
(`enabled = false`), passing `use_cache=True` on a request cannot
re-enable caching: the lookup is absent, so the call runs the full network
path (at least one attempt whenever the trace is non-empty), and the
post-success store is a no-op, so the cache state is returned unchanged;
the per-call override can only bypass caching, never force it on. -/
theorem C10_disabled_cache_not_reenabled :
    ∀ (settings_use_cache : Bool) (max_retries : Nat) (cache : Cache)
      (endpoint : String) (params : Option Params) (trace : List HttpResult)
      (now : Nat),
      cache.enabled = false →
      (NotionClient.request settings_use_cache max_retries cache "GET" endpoint
          params (some true) trace now).result = (retryLoop max_retries 1 trace).1 ∧
      (NotionClient.request settings_use_cache max_retries cache "GET" endpoint
          params (some true) trace now).cache = cache ∧
      (NotionClient.request settings_use_cache max_retries cache "GET" endpoint
          params (some true) trace now).effects = (retryLoop max_retries 1 trace).2 ∧
      (trace ≠ [] →
        1 ≤ (NotionClient.request settings_use_cache max_retries cache "GET"
              endpoint params (some true) trace now).effects.acquires) := by
  intro suc mr cache e p trace now hen
  have hget : cache.get e p now = (none, cache) := by
    simp [Cache.get, hen]
  have hset : ∀ v, cache.set e p v none now = cache := by
    intro v
    simp [Cache.set, hen]
  have hmain : NotionClient.request suc mr cache "GET" e p (some true) trace now =
      ⟨(retryLoop mr 1 trace).1, cache, (retryLoop mr 1 trace).2⟩ := by
    simp only [NotionClient.request, Option.getD, hget]
    rcases hrl : retryLoop mr 1 trace with ⟨res, eff⟩
    cases res with
    | none => simp
    | some exc =>
      cases exc with
      | ok v => simp [hset v]
      | error err => simp
  rw [hmain]
  exact ⟨rfl, rfl, rfl, fun hne => retryLoop_acquires_pos mr 1 trace hne⟩

/-- Witness for C10: a disabled cache together with `use_cache=True` still
performs the single network attempt of a one-response trace, and the cache
comes back unchanged. -/
theorem C10_disabled_cache_not_reenabled_witness :
    (NotionClient.request true 5 (Cache.init false 300) "GET" "/pages" none
        (some true) [HttpResult.response 200 none [] (Json.str "fresh")] 0).result =
      (retryLoop 5 1 [HttpResult.response 200 none [] (Json.str "fresh")]).1 ∧
    (NotionClient.request true 5 (Cache.init false 300) "GET" "/pages" none
        (some true) [HttpResult.response 200 none [] (Json.str "fresh")] 0).cache =
      Cache.init false 300 ∧
    1 ≤ (NotionClient.request true 5 (Cache.init false 300) "GET" "/pages" none
        (some true) [HttpResult.response 200 none [] (Json.str "fresh")] 0).effects.acquires := by
  have h := C10_disabled_cache_not_reenabled true 5 (Cache.init false 300)
    "/pages" none [HttpResult.response 200 none [] (Json.str "fresh")] 0 rfl
  exact ⟨h.1, h.2.1, h.2.2.2 (by simp)⟩

/-- Claim C7: for a toggle block, `render_block` output is exactly the
`<details>` opening, the summary line, one rendering pass over the
children at `depth + 1`, and the `</details>` close — each child rendered
exactly once, inside the wrapper.  Because the handler cleared the
block's children in place, the generic child-append step that follows the
dispatch sees an empty list and contributes nothing, so no second
rendering is appended after the wrapper. -/
theorem C7_toggle_children_once :
    ∀ (st : RState) (rich : List RichText) (checked : Bool)
      (cells : List (List RichText)) (children : List Block) (depth : Nat),
      renderBlock st (.mk "toggle" rich checked cells children) depth =
        (let st2 : RState :=
           { numbered_list_counters :=
               if st.last_block_type = some "numbered_list_item" then []
               else st.numbered_list_counters,
             last_block_type := some "toggle" }
         let rendered := renderKidsConcat st2 children (depth + 1)
         (indentStr depth ++ "<details>\n" ++ indentStr depth ++ "<summary>" ++
            render_rich_text rich ++ "</summary>\n\n" ++ rendered.1 ++ "\n" ++
            indentStr depth ++ "</details>\n", rendered.2)) := by
  intro st rich checked cells children depth
  by_cases hl : st.last_block_type = some "numbered_list_item"
  · simp [renderBlock, hl]
  · simp [renderBlock, hl]

/-- Claim C8: numbered-list numbering.  Three sibling numbered items at
depth 0 render as `1.`, `2.`, `3.`; a paragraph interrupting the run
resets the counter, so the next numbered item renders as `1.` again; and
whenever the counter at some depth advances (inside
`_render_numbered_list_item`), every counter at a strictly deeper depth is
deleted from the counter map. -/
theorem C8_numbered_list_numbering :
    (render_blocks RState.init
        [numberedItem "a", numberedItem "b", numberedItem "c"] =
      "1. a\n\n2. b\n\n3. c\n") ∧
    (render_blocks RState.init
        [numberedItem "a", numberedItem "b", paragraphBlock "p", numberedItem "c"] =
      "1. a\n\n2. b\n\np\n\n1. c\n") ∧
    (∀ (st : RState) (rich : List RichText) (depth : Nat) (k : Nat),
      k ∈ ((render_numbered_list_item st rich depth).2.numbered_list_counters).map
            Prod.fst →
      k ≤ depth) := by
  refine ⟨rfl, rfl, ?_⟩
  intro st rich depth k hk
  simp only [render_numbered_list_item, List.map_map, List.mem_map,
    List.mem_filter] at hk
  obtain ⟨kv, ⟨_, hle⟩, hfst⟩ := hk
  subst hfst
  exact Nat.le_of_ble_eq_true (by simpa using hle)

/-- Witness for C8's universal part: after rendering a numbered item at
depth 1 from a state also holding a depth-2 counter, the only keys left
are at most 1. -/
theorem C8_numbered_list_numbering_witness :
    (1 : Nat) ∈ ((render_numbered_list_item
        ⟨[(0, 1), (2, 5)], some "numbered_list_item"⟩ [] 1).2.numbered_list_counters).map
          Prod.fst ∧
    (1 : Nat) ≤ 1 :=
  ⟨by decide,
   C8_numbered_list_numbering.2.2 ⟨[(0, 1), (2, 5)], some "numbered_list_item"⟩ [] 1 1
     (by decide)⟩

/-- With all annotation flags false, annotation application is the
identity. -/
theorem apply_annotations_default (s : String) : apply_annotations s {} = s := by
  by_cases h : s = ""
  · simp [apply_annotations, h]
  · simp [apply_annotations, h]

/-- A string starting with a literal left bracket satisfies the renderer's
bracket test. -/
theorem startsWithBracket_append (s : String) :
    startsWithBracket ("[" ++ s) = true := by
  simp [startsWithBracket, String.data_append]

/-- The bracket test only looks at the first characters, so it survives
appending on the right. -/
theorem startsWithBracket_of_left (s t : String)
    (h : startsWithBracket s = true) : startsWithBracket (s ++ t) = true := by
  have h2 : s.data.head? = some '[' := of_decide_eq_true h
  have h3 : (s ++ t).data.head? = some '[' := by
    rw [String.data_append]
    cases hd : s.data with
    | nil => rw [hd] at h2; simp at h2
    | cons c cs =>
      rw [hd] at h2
      simp at h2
      simpa using h2
  exact decide_eq_true h3

/-- Counterexample to claim C9: the run `c9run` carries a `text.link`, a
bold annotation and a top-level `href`; the claim says the href must not
wrap the content again, i.e. the rendering should be `**[x](u)**`, but the
code wraps a second time because the bold markers hide the leading `[`
from the `startswith` guard. -/
theorem C9_counterexample :
    render_text_segment c9run = "[**[x](u)**](h)" ∧
    render_text_segment c9run ≠ "**[x](u)**" :=
  ⟨rfl, by decide⟩

/-- Claim C9 as amended: the href guard is `content.startswith("[")` on
the already-annotated content, so (a) a text run with a `text.link` and no
annotations renders as `[content](url)` with the href suppressed (single
wrapper); (b) a run with no `text.link` whose annotated content does not
start with `[` is wrapped exactly once by a nonempty href; (c) annotated
content that starts with `[` is never href-wrapped.  (When annotations
separate the href guard from a `text.link` wrapper, the code wraps twice —
the counterexample.) -/
theorem C9_amended_link_wrapping :
    (∀ (content url h : String),
      render_text_segment
        { content := content, link := some url, annotations := {}, href := some h } =
        "[" ++ content ++ "](" ++ url ++ ")") ∧
    (∀ (seg : RichText) (h : String),
      seg.type = "text" → seg.link = none → seg.href = some h → h ≠ "" →
      startsWithBracket (apply_annotations seg.content seg.annotations) = false →
      render_text_segment seg =
        "[" ++ apply_annotations seg.content seg.annotations ++ "](" ++ h ++ ")") ∧
    (∀ (seg : RichText) (h : String),
      seg.type = "text" → seg.link = none → seg.href = some h →
      startsWithBracket (apply_annotations seg.content seg.annotations) = true →
      render_text_segment seg = apply_annotations seg.content seg.annotations) := by
  refine ⟨?_, ?_, ?_⟩
  · intro content url h
    have hsb : startsWithBracket ("[" ++ content ++ "](" ++ url ++ ")") = true :=
      startsWithBracket_of_left _ _ (startsWithBracket_of_left _ _
        (startsWithBracket_of_left _ _ (startsWithBracket_append content)))
    simp [render_text_segment, finish_segment, apply_annotations_default, hsb]
  · intro seg h htype hlink hhref hne hsb
    simp [render_text_segment, finish_segment, htype, hlink, hhref, hne, hsb]
  · intro seg h htype hlink hhref hsb
    simp [render_text_segment, finish_segment, htype, hlink, hhref, hsb]

/-- Witness for the amended C9: a bold run `"y"` with no link and href
`"h"` is wrapped exactly once as `[**y**](h)`. -/
theorem C9_amended_link_wrapping_witness :
    render_text_segment c9amendedRun =
      "[" ++ apply_annotations c9amendedRun.content c9amendedRun.annotations ++
        "](" ++ "h" ++ ")" :=
  C9_amended_link_wrapping.2.1 c9amendedRun "h" rfl rfl rfl (by decide) (by decide)
